import Mathlib

/-!
Verification of the interactive SVG graph engine (`Graph.js`) of the
GCSE-physics test application.  The engine is embedded shallowly: all
numeric quantities are modelled as exact rationals (`ℚ`), JavaScript's
`Math.round` as `⌊q + 1/2⌋` (round half toward +∞), JavaScript's `%`
remainder as truncated-division remainder, and the imperative loops of
the area-shading algorithms as structural recursions carrying the same
state the loops carry.
-/

namespace GraphJS

/-- A point, in data space or SVG space (`{x, y}` in the source). -/
structure Pt where
  x : ℚ
  y : ℚ
deriving DecidableEq, Repr

/-- Axis specification: range, major tick interval, optional quantization
interval (`snapStep` may be absent, and JavaScript's `||` also treats an
explicit `0` as absent). -/
structure AxisSpec where
  min : ℚ
  max : ℚ
  step : ℚ
  snapStep : Option ℚ
deriving DecidableEq, Repr

/-- Effective snap interval: `xAxis.snapStep || xAxis.step` — the `||`
falls through to `step` when `snapStep` is `undefined` or `0` (falsy). -/
def AxisSpec.snapOf (a : AxisSpec) : ℚ :=
  match a.snapStep with
  | none => a.step
  | some s => if s = 0 then a.step else s

/-- The part of `graphSpec` the coordinate mapper and overlay consume. -/
structure PlotSpec where
  xAxis : AxisSpec
  yAxis : AxisSpec
deriving DecidableEq, Repr

/-- `this.padding.left` (64) in the constructor. -/
def paddingLeft : ℚ := 64

/-- `this.padding.top` (24) in the constructor. -/
def paddingTop : ℚ := 24

/-- `this.plotWidth = width - padding.left - padding.right = 600 - 64 - 24`. -/
def plotWidth : ℚ := 600 - 64 - 24

/-- `this.plotHeight = height - padding.top - padding.bottom = 400 - 24 - 56`. -/
def plotHeight : ℚ := 400 - 24 - 56

/-- `Graph.toPixel(dataX, dataY)`: data space to SVG space, y inverted. -/
def toPixel (s : PlotSpec) (p : Pt) : Pt :=
  { x := paddingLeft + ((p.x - s.xAxis.min) / (s.xAxis.max - s.xAxis.min)) * plotWidth
    y := paddingTop + ((s.yAxis.max - p.y) / (s.yAxis.max - s.yAxis.min)) * plotHeight }

/-- `Graph.toData(svgX, svgY)`: SVG space back to data space. -/
def toData (s : PlotSpec) (q : Pt) : Pt :=
  { x := s.xAxis.min + ((q.x - paddingLeft) / plotWidth) * (s.xAxis.max - s.xAxis.min)
    y := s.yAxis.max - ((q.y - paddingTop) / plotHeight) * (s.yAxis.max - s.yAxis.min) }

/-- JavaScript `Math.round`: round half toward positive infinity. -/
def jround (q : ℚ) : ℤ := ⌊q + 1 / 2⌋

/-- One coordinate of `Graph.snap`: `Math.round(v / snapStep) * snapStep`. -/
def snap1 (s v : ℚ) : ℚ := (jround (v / s) : ℚ) * s

/-- `Graph.snap(dataX, dataY)`: independent per-axis quantization. -/
def snap (s : PlotSpec) (p : Pt) : Pt :=
  { x := snap1 s.xAxis.snapOf p.x, y := snap1 s.yAxis.snapOf p.y }

/-- One coordinate of the inline clamp in `showCrosshair`:
`Math.max(min, Math.min(max, v))`. -/
def clamp1 (lo hi v : ℚ) : ℚ := max lo (min hi v)

/-- The inline clamp in `showCrosshair`: per-axis clamp into `[min, max]`. -/
def clamp (s : PlotSpec) (p : Pt) : Pt :=
  { x := clamp1 s.xAxis.min s.xAxis.max p.x
    y := clamp1 s.yAxis.min s.yAxis.max p.y }

/-- The crosshair pipeline of `showCrosshair`: `toData`, then `snap`,
then the inline clamp; the result is stored in `this.crosshairPos`. -/
def snapClamp (s : PlotSpec) (p : Pt) : Pt := clamp s (snap s p)

/-- The sign-change test of `_splitByZero`:
`(prev.y >= 0 && curr.y < 0) || (prev.y < 0 && curr.y >= 0)` —
exactly-zero is counted as non-negative. -/
def crossesZero (prev curr : Pt) : Bool :=
  decide ((0 ≤ prev.y ∧ curr.y < 0) ∨ (prev.y < 0 ∧ 0 ≤ curr.y))

/-- The interpolated zero crossing of `_splitByZero`:
`t = prev.y / (prev.y - curr.y)`, `crossX = prev.x + t * (curr.x - prev.x)`,
crossing point `{x: crossX, y: 0}`. -/
def crossingPoint (prev curr : Pt) : Pt :=
  { x := prev.x + (prev.y / (prev.y - curr.y)) * (curr.x - prev.x), y := 0 }

/-- The loop of `_splitByZero`: `prev` is the previous original point
(`points[i-1]`), `current` the open segment, `segs` the closed segments. -/
def splitLoop : Pt → List Pt → List Pt → List (List Pt) → List (List Pt)
  | _, [], current, segs => if current.isEmpty then segs else segs ++ [current]
  | prev, curr :: rest, current, segs =>
    if crossesZero prev curr then
      splitLoop curr rest [crossingPoint prev curr, curr]
        (segs ++ [current ++ [crossingPoint prev curr]])
    else
      splitLoop curr rest (current ++ [curr]) segs

/-- `Graph._splitByZero(points)`: lists of fewer than 2 points are
returned as a single segment, otherwise the loop runs from index 1 with
`current = [points[0]]` and no closed segment. -/
def splitByZero (points : List Pt) : List (List Pt) :=
  match points with
  | [] => [[]]
  | [p] => [[p]]
  | p :: rest => splitLoop p rest [p] []

/-- Boundary interpolation of `_getPointsInRange`:
`{x: bx, y: prev.y + t * (p.y - prev.y)}` with `t = (bx - prev.x) / (p.x - prev.x)`. -/
def interpAt (bx : ℚ) (prev p : Pt) : Pt :=
  { x := bx, y := prev.y + ((bx - prev.x) / (p.x - prev.x)) * (p.y - prev.y) }

/-- The loop of `_getPointsInRange`: at index `i` it pushes `p = points[i]`
if in range, then (for `i > 0`) unshifts the `fromX` interpolation when
`prev.x < fromX < p.x` and pushes the `toX` interpolation when
`prev.x < toX < p.x`. -/
def rangeLoop (fromX toX : ℚ) : Pt → List Pt → List Pt → List Pt
  | _, [], res => res
  | prev, p :: rest, res =>
    let r1 := if fromX ≤ p.x ∧ p.x ≤ toX then res ++ [p] else res
    let r2 := if prev.x < fromX ∧ fromX < p.x then interpAt fromX prev p :: r1 else r1
    let r3 := if prev.x < toX ∧ toX < p.x then r2 ++ [interpAt toX prev p] else r2
    rangeLoop fromX toX p rest r3

/-- The final `result.sort((a, b) => a.x - b.x)` of `_getPointsInRange`:
JavaScript's `Array.prototype.sort` is a stable sort, modelled by the
stable insertion sort `List.insertionSort` on the key `x`. -/
def sortByX (l : List Pt) : List Pt :=
  l.insertionSort (fun a b => a.x ≤ b.x)

instance : IsTotal Pt (fun a b => a.x ≤ b.x) := ⟨fun a b => le_total a.x b.x⟩

instance : IsTrans Pt (fun a b => a.x ≤ b.x) := ⟨fun _ _ _ h1 h2 => le_trans h1 h2⟩

/-- `Graph._getPointsInRange(points, fromX, toX)`. -/
def getPointsInRange (points : List Pt) (fromX toX : ℚ) : List Pt :=
  match points with
  | [] => []
  | p :: rest =>
    sortByX (rangeLoop fromX toX p rest (if fromX ≤ p.x ∧ p.x ≤ toX then [p] else []))

/-- Specification-style restatement of range extraction used to compare
against `getPointsInRange` (amended to insert a boundary point only for
ascending straddling pairs `prev.x < boundary < curr.x`): the generated
points of the pair walk, in authored order. -/
def specRangeGen (fromX toX : ℚ) : Pt → List Pt → List Pt
  | _, [] => []
  | prev, p :: rest =>
    (if fromX ≤ p.x ∧ p.x ≤ toX then [p] else []) ++
    (if prev.x < fromX ∧ fromX < p.x then [interpAt fromX prev p] else []) ++
    (if prev.x < toX ∧ toX < p.x then [interpAt toX prev p] else []) ++
    specRangeGen fromX toX p rest

/-- Specification-style restatement of range extraction (amended):
authored in-range points plus boundary interpolations of ascending
straddling pairs, in authored order (before the defensive sort). -/
def specRangeExtract (points : List Pt) (fromX toX : ℚ) : List Pt :=
  match points with
  | [] => []
  | p :: rest =>
    (if fromX ≤ p.x ∧ p.x ≤ toX then [p] else []) ++ specRangeGen fromX toX p rest

/-- The exact-equality lookup of the overlay click/touch handlers:
`placedPoints.find(p => p.x === c.x && p.y === c.y)`. -/
def findExact (pts : List Pt) (c : Pt) : Option Pt :=
  pts.find? (fun p => decide (p.x = c.x) && decide (p.y = c.y))

/-- `Graph._removePoint(pt)`: keeps exactly the stored points that are
not within `0.01` of `pt` in both coordinates (a tolerant filter that can
remove several points at once). -/
def removePoint (pts : List Pt) (pt : Pt) : List Pt :=
  pts.filter (fun p =>
    ! (decide (|p.x - pt.x| < 1 / 100) && decide (|p.y - pt.y| < 1 / 100)))

/-- Store effect of the plot-mode click handler: remove via
`_removePoint` when an exactly equal point exists, else append. -/
def clickPlot (pts : List Pt) (c : Pt) : List Pt :=
  match findExact pts c with
  | some existing => removePoint pts existing
  | none => pts ++ [c]

/-- Store effect of the plot-mode `touchend` handler: append when no
exactly equal point exists, otherwise leave the store unchanged. -/
def touchPlot (pts : List Pt) (c : Pt) : List Pt :=
  match findExact pts c with
  | some _ => pts
  | none => pts ++ [c]

/-- Interaction mode: `'view' | 'read' | 'plot-points'`. -/
inductive Mode where
  | view
  | read
  | plotPoints
deriving DecidableEq, Repr

/-- Externally observable outcome of one commit (click or touch-release):
the new store, the `onPointsChange` payload if fired, and the
`onValueRead` payload if fired. -/
structure CommitResult where
  store : List Pt
  pointsChange : Option (List Pt)
  valueRead : Option Pt
deriving DecidableEq, Repr

/-- The overlay `click` handler: no-op without a crosshair position; in
plot mode toggle (remove when an exact match exists — notifying — else
append and notify); in read mode emit the crosshair point. In view mode
the overlay is not rendered, so no handler runs. -/
def clickCommit (mode : Mode) (pts : List Pt) (cross : Option Pt) : CommitResult :=
  match cross with
  | none => ⟨pts, none, none⟩
  | some c =>
    match mode with
    | Mode.view => ⟨pts, none, none⟩
    | Mode.read => ⟨pts, none, some c⟩
    | Mode.plotPoints =>
      match findExact pts c with
      | some existing => ⟨removePoint pts existing, some (removePoint pts existing), none⟩
      | none => ⟨pts ++ [c], some (pts ++ [c]), none⟩

/-- The overlay `touchend` handler: same as `clickCommit` except that in
plot mode an existing exact match is left in place (no removal and no
notification). -/
def touchCommit (mode : Mode) (pts : List Pt) (cross : Option Pt) : CommitResult :=
  match cross with
  | none => ⟨pts, none, none⟩
  | some c =>
    match mode with
    | Mode.view => ⟨pts, none, none⟩
    | Mode.read => ⟨pts, none, some c⟩
    | Mode.plotPoints =>
      match findExact pts c with
      | some _ => ⟨pts, none, none⟩
      | none => ⟨pts ++ [c], some (pts ++ [c]), none⟩

/-- `Graph.setPlacedPoints(points)`: `this.placedPoints = [...points]` —
a verbatim copy, with no snapping, clamping or validation. -/
def setPlacedPoints (points : List Pt) : List Pt := points

/-- JavaScript number truncation (`Math.trunc`, the `q` of `a % b`):
round toward zero. -/
def jsTrunc (q : ℚ) : ℤ := if 0 ≤ q then ⌊q⌋ else ⌈q⌉

/-- JavaScript `%` on finite numbers: `a % b = a - b * trunc(a / b)`
(remainder takes the dividend's sign). -/
def jsMod (a b : ℚ) : ℚ := a - b * (jsTrunc (a / b) : ℚ)

/-- The gridline classification of `_renderGridlines`:
`isMain = (v - axis.min) % axis.step === 0`, exact equality of the
remainder. -/
def isMainTick (axis : AxisSpec) (v : ℚ) : Bool :=
  decide (jsMod (v - axis.min) axis.step = 0)

/-- The tick values generated by
`for (let v = axis.min; v <= axis.max; v += snap)` in exact arithmetic,
for a positive snap interval (the JavaScript loop does not terminate for
a non-positive one): `min + k * snap` for `k = 0 .. ⌊(max - min)/snap⌋`. -/
def ticks (axis : AxisSpec) : List ℚ :=
  if axis.max < axis.min then []
  else (List.range (((axis.max - axis.min) / axis.snapOf).floor.toNat + 1)).map
    (fun k : ℕ => axis.min + (k : ℚ) * axis.snapOf)

/-- The per-instance state the `Graph` constructor initializes. -/
structure GraphState where
  spec : PlotSpec
  placedPoints : List Pt
  mode : Mode
deriving DecidableEq, Repr

/-- Termination of one render loop `for (v = lo; v <= hi; v += inc)`:
it stops iff it runs zero iterations (`hi < lo`) or the increment is
positive; with `lo ≤ hi` and `inc ≤ 0` the loop variable never exceeds
`hi` and the loop runs forever. -/
def loopTerminates (lo hi inc : ℚ) : Prop := hi < lo ∨ 0 < inc

instance (lo hi inc : ℚ) : Decidable (loopTerminates lo hi inc) :=
  inferInstanceAs (Decidable (hi < lo ∨ 0 < inc))

/-- Termination of the synchronous `render()` the constructor calls: the
only unbounded work are the four `min`-to-`max` loops — the gridline
loops of `_renderGridlines` (increment: each axis's effective snap
interval) and the tick loops of `_renderAxes` (increment: each axis's
`step`); every other render loop walks a finite list. -/
def renderTerminates (s : PlotSpec) : Prop :=
  loopTerminates s.xAxis.min s.xAxis.max s.xAxis.snapOf ∧
  loopTerminates s.yAxis.min s.yAxis.max s.yAxis.snapOf ∧
  loopTerminates s.xAxis.min s.xAxis.max s.xAxis.step ∧
  loopTerminates s.yAxis.min s.yAxis.max s.yAxis.step

instance (s : PlotSpec) : Decidable (renderTerminates s) :=
  inferInstanceAs (Decidable
    (loopTerminates s.xAxis.min s.xAxis.max s.xAxis.snapOf ∧
     loopTerminates s.yAxis.min s.yAxis.max s.yAxis.snapOf ∧
     loopTerminates s.xAxis.min s.xAxis.max s.xAxis.step ∧
     loopTerminates s.yAxis.min s.yAxis.max s.yAxis.step))

/-- The `Graph` constructor: stores the spec verbatim, starts with an
empty placed-point store and the given mode, then synchronously calls
`render()`.  It contains no validation of the spec and no rejection
path: when the four render loops terminate the constructor returns the
initialized instance; otherwise it never returns (the gridline loop runs
forever), modelled by `none`. -/
def construct (spec : PlotSpec) (mode : Mode) : Option GraphState :=
  if renderTerminates spec then
    some { spec := spec, placedPoints := [], mode := mode }
  else none

end GraphJS

namespace GraphJS

/-- `plotWidth` is the nonzero constant 512. -/
lemma plotWidth_ne_zero : plotWidth ≠ 0 := by norm_num [plotWidth]

/-- `plotHeight` is the nonzero constant 320. -/
lemma plotHeight_ne_zero : plotHeight ≠ 0 := by norm_num [plotHeight]

lemma toData_toPixel_exact (s : PlotSpec) (p : Pt)
    (hx : s.xAxis.min ≠ s.xAxis.max) (hy : s.yAxis.min ≠ s.yAxis.max) :
    toData s (toPixel s p) = p := by
  have hx' : s.xAxis.max - s.xAxis.min ≠ 0 := sub_ne_zero.mpr (Ne.symm hx)
  have hy' : s.yAxis.max - s.yAxis.min ≠ 0 := sub_ne_zero.mpr (Ne.symm hy)
  have hw := plotWidth_ne_zero
  have hh := plotHeight_ne_zero
  cases p with
  | mk px py =>
    simp only [toData, toPixel, Pt.mk.injEq]
    constructor
    · field_simp
      ring
    · field_simp
      ring

end GraphJS

/-- C1: for every data point `p` with `p.x ∈ [xAxis.min, xAxis.max]` and
`p.y ∈ [yAxis.min, yAxis.max]` (axes satisfying the data-model invariant
`min < max`), `toData (toPixel p)` equals `p` within `1e-6` absolute error
on each coordinate.  In the exact-rational embedding the round trip is in
fact exact, so the `1e-6` bound holds. -/
theorem GraphJS.roundTrip_within_1e6 (s : GraphJS.PlotSpec) (p : GraphJS.Pt)
    (hxv : s.xAxis.min < s.xAxis.max) (hyv : s.yAxis.min < s.yAxis.max)
    (hx1 : s.xAxis.min ≤ p.x) (hx2 : p.x ≤ s.xAxis.max)
    (hy1 : s.yAxis.min ≤ p.y) (hy2 : p.y ≤ s.yAxis.max) :
    |(GraphJS.toData s (GraphJS.toPixel s p)).x - p.x| ≤ 1 / 1000000 ∧
    |(GraphJS.toData s (GraphJS.toPixel s p)).y - p.y| ≤ 1 / 1000000 := by
  have h := GraphJS.toData_toPixel_exact s p (ne_of_lt hxv) (ne_of_lt hyv)
  rw [h]
  norm_num

/-- Witness for C1: a concrete axis pair and in-range point. -/
theorem GraphJS.roundTrip_within_1e6_witness :
    |(GraphJS.toData ⟨⟨0, 10, 2, some 1⟩, ⟨0, 20, 5, none⟩⟩
        (GraphJS.toPixel ⟨⟨0, 10, 2, some 1⟩, ⟨0, 20, 5, none⟩⟩ ⟨3, 7⟩)).x - 3| ≤ 1 / 1000000 ∧
    |(GraphJS.toData ⟨⟨0, 10, 2, some 1⟩, ⟨0, 20, 5, none⟩⟩
        (GraphJS.toPixel ⟨⟨0, 10, 2, some 1⟩, ⟨0, 20, 5, none⟩⟩ ⟨3, 7⟩)).y - 7| ≤ 1 / 1000000 :=
  GraphJS.roundTrip_within_1e6 ⟨⟨0, 10, 2, some 1⟩, ⟨0, 20, 5, none⟩⟩ ⟨3, 7⟩
    (by norm_num) (by norm_num) (by norm_num) (by norm_num) (by norm_num) (by norm_num)

namespace GraphJS

/-- JavaScript `Math.round` is the identity on integers. -/
lemma jround_intCast (k : ℤ) : jround (k : ℚ) = k := by
  unfold jround
  rw [Int.floor_int_add]
  norm_num

/-- JavaScript `Math.round` is monotone. -/
lemma jround_mono {q r : ℚ} (h : q ≤ r) : jround q ≤ jround r :=
  Int.floor_mono (by linarith)

/-- Snapping fixes every integer multiple of the snap interval. -/
lemma snap1_mul (s : ℚ) (hs : s ≠ 0) (a : ℤ) : snap1 s ((a : ℚ) * s) = (a : ℚ) * s := by
  unfold snap1
  rw [mul_div_assoc, div_self hs, mul_one, jround_intCast]

/-- The inline clamp is idempotent on each coordinate. -/
lemma clamp1_idem (lo hi v : ℚ) : clamp1 lo hi (clamp1 lo hi v) = clamp1 lo hi v := by
  unfold clamp1
  rcases le_total hi lo with h | h
  · rw [max_eq_left (le_trans (min_le_left hi v) h), min_eq_left h, max_eq_left h]
  · have h2 : max lo (min hi v) ≤ hi := max_le h (min_le_left _ _)
    rw [min_eq_right h2, max_eq_right (le_max_left _ _)]

/-- When the clamp bounds are integer multiples of the snap interval,
snapping after clamping agrees with clamping after snapping, on one
coordinate. -/
lemma snap1_clamp1_comm (s lo hi v : ℚ) (hs : 0 < s) (a b : ℤ)
    (hlo : lo = (a : ℚ) * s) (hhi : hi = (b : ℚ) * s) (hab : lo ≤ hi) :
    snap1 s (clamp1 lo hi v) = clamp1 lo hi (snap1 s v) := by
  have hs' : s ≠ 0 := ne_of_gt hs
  rcases le_total v lo with hvlo | hlov
  · -- v ≤ lo: both sides are lo
    have hvhi : v ≤ hi := le_trans hvlo hab
    have hsnap_le : snap1 s v ≤ lo := by
      have h1 : v / s ≤ (a : ℚ) := by
        rw [div_le_iff hs]
        simpa [hlo] using hvlo
      have h2 : jround (v / s) ≤ a := by
        have := jround_mono h1
        rwa [jround_intCast] at this
      calc snap1 s v = (jround (v / s) : ℚ) * s := rfl
        _ ≤ (a : ℚ) * s := by
            apply mul_le_mul_of_nonneg_right _ (le_of_lt hs)
            exact_mod_cast h2
        _ = lo := hlo.symm
    have hcl : clamp1 lo hi v = lo := by
      unfold clamp1
      rw [min_eq_right hvhi, max_eq_left hvlo]
    rw [hcl, hlo, snap1_mul s hs' a, ← hlo]
    unfold clamp1
    rw [min_eq_right (le_trans hsnap_le hab), max_eq_left hsnap_le]
  · rcases le_total v hi with hvhi | hhiv
    · -- lo ≤ v ≤ hi: both sides are snap1 s v
      have hcl : clamp1 lo hi v = v := by
        unfold clamp1
        rw [min_eq_right hvhi, max_eq_right hlov]
      have h1 : (a : ℚ) ≤ v / s := by
        rw [le_div_iff hs]
        simpa [hlo] using hlov
      have h2 : v / s ≤ (b : ℚ) := by
        rw [div_le_iff hs]
        simpa [hhi] using hvhi
      have h3 : a ≤ jround (v / s) := by
        have := jround_mono h1
        rwa [jround_intCast] at this
      have h4 : jround (v / s) ≤ b := by
        have := jround_mono h2
        rwa [jround_intCast] at this
      have hlos : lo ≤ snap1 s v := by
        calc lo = (a : ℚ) * s := hlo
          _ ≤ (jround (v / s) : ℚ) * s := by
              apply mul_le_mul_of_nonneg_right _ (le_of_lt hs)
              exact_mod_cast h3
          _ = snap1 s v := rfl
      have hshi : snap1 s v ≤ hi := by
        calc snap1 s v = (jround (v / s) : ℚ) * s := rfl
          _ ≤ (b : ℚ) * s := by
              apply mul_le_mul_of_nonneg_right _ (le_of_lt hs)
              exact_mod_cast h4
          _ = hi := hhi.symm
      rw [hcl]
      unfold clamp1
      rw [min_eq_right hshi, max_eq_right hlos]
    · -- hi ≤ v: both sides are hi
      have hsnap_ge : hi ≤ snap1 s v := by
        have h1 : (b : ℚ) ≤ v / s := by
          rw [le_div_iff hs]
          simpa [hhi] using hhiv
        have h2 : b ≤ jround (v / s) := by
          have := jround_mono h1
          rwa [jround_intCast] at this
        calc hi = (b : ℚ) * s := hhi
          _ ≤ (jround (v / s) : ℚ) * s := by
              apply mul_le_mul_of_nonneg_right _ (le_of_lt hs)
              exact_mod_cast h2
          _ = snap1 s v := rfl
      have hcl : clamp1 lo hi v = hi := by
        unfold clamp1
        rw [min_eq_left hhiv, max_eq_right hab]
      rw [hcl, hhi, snap1_mul s hs' b, ← hhi]
      unfold clamp1
      rw [min_eq_left hsnap_ge, max_eq_right hab]

end GraphJS

/-- C8 (amended): `clamp` is idempotent for every data point; `snap`
applied after `clamp` agrees with `clamp` applied after `snap` provided
each axis has a positive snap interval, `min ≤ max`, and both `min` and
`max` are integer multiples of that snap interval.  (Unconditionally the
commutation is false: see the counterexample.) -/
theorem GraphJS.clamp_idem_and_comm (s : GraphJS.PlotSpec) (p : GraphJS.Pt) :
    GraphJS.clamp s (GraphJS.clamp s p) = GraphJS.clamp s p ∧
    ((0 < s.xAxis.snapOf ∧ 0 < s.yAxis.snapOf ∧
      s.xAxis.min ≤ s.xAxis.max ∧ s.yAxis.min ≤ s.yAxis.max ∧
      (∃ a : ℤ, s.xAxis.min = (a : ℚ) * s.xAxis.snapOf) ∧
      (∃ b : ℤ, s.xAxis.max = (b : ℚ) * s.xAxis.snapOf) ∧
      (∃ c : ℤ, s.yAxis.min = (c : ℚ) * s.yAxis.snapOf) ∧
      (∃ d : ℤ, s.yAxis.max = (d : ℚ) * s.yAxis.snapOf)) →
     GraphJS.snap s (GraphJS.clamp s p) = GraphJS.clamp s (GraphJS.snap s p)) := by
  constructor
  · simp only [GraphJS.clamp]
    rw [GraphJS.clamp1_idem, GraphJS.clamp1_idem]
  · rintro ⟨hxs, hys, hxo, hyo, ⟨a, ha⟩, ⟨b, hb⟩, ⟨c, hc⟩, ⟨d, hd⟩⟩
    simp only [GraphJS.snap, GraphJS.clamp, GraphJS.Pt.mk.injEq]
    exact ⟨GraphJS.snap1_clamp1_comm _ _ _ _ hxs a b ha hb hxo,
           GraphJS.snap1_clamp1_comm _ _ _ _ hys c d hc hd hyo⟩

/-- Witness for C8: concrete axes `[0, 10]` with snap interval 5 (both
bounds multiples of 5) at the out-of-range point `(12, 3)`. -/
theorem GraphJS.clamp_idem_and_comm_witness :
    GraphJS.clamp ⟨⟨0, 10, 2, some 5⟩, ⟨0, 10, 2, some 5⟩⟩
        (GraphJS.clamp ⟨⟨0, 10, 2, some 5⟩, ⟨0, 10, 2, some 5⟩⟩ ⟨12, 3⟩) =
      GraphJS.clamp ⟨⟨0, 10, 2, some 5⟩, ⟨0, 10, 2, some 5⟩⟩ ⟨12, 3⟩ ∧
    GraphJS.snap ⟨⟨0, 10, 2, some 5⟩, ⟨0, 10, 2, some 5⟩⟩
        (GraphJS.clamp ⟨⟨0, 10, 2, some 5⟩, ⟨0, 10, 2, some 5⟩⟩ ⟨12, 3⟩) =
      GraphJS.clamp ⟨⟨0, 10, 2, some 5⟩, ⟨0, 10, 2, some 5⟩⟩
        (GraphJS.snap ⟨⟨0, 10, 2, some 5⟩, ⟨0, 10, 2, some 5⟩⟩ ⟨12, 3⟩) := by
  refine ⟨(GraphJS.clamp_idem_and_comm _ ⟨12, 3⟩).1,
          (GraphJS.clamp_idem_and_comm _ ⟨12, 3⟩).2 ?_⟩
  refine ⟨by norm_num [GraphJS.AxisSpec.snapOf], by norm_num [GraphJS.AxisSpec.snapOf],
          by norm_num, by norm_num,
          ⟨0, by norm_num [GraphJS.AxisSpec.snapOf]⟩, ⟨2, by norm_num [GraphJS.AxisSpec.snapOf]⟩,
          ⟨0, by norm_num [GraphJS.AxisSpec.snapOf]⟩, ⟨2, by norm_num [GraphJS.AxisSpec.snapOf]⟩⟩

/-- Counterexample for C8: on axes `[0, 10]` with snap interval 4 (so
`max = 10` is not a multiple of the snap interval), at the in-range point
`(10, 0)` we get `snap (clamp p) = (12, 0)` but `clamp (snap p) = (10, 0)`
(`Math.round(10/4) = Math.round(2.5) = 3`), so the claimed conjunction
fails as stated. -/
theorem GraphJS.clamp_snap_comm_counterexample :
    ¬ (GraphJS.clamp ⟨⟨0, 10, 2, some 4⟩, ⟨0, 10, 2, some 4⟩⟩
          (GraphJS.clamp ⟨⟨0, 10, 2, some 4⟩, ⟨0, 10, 2, some 4⟩⟩ ⟨10, 0⟩) =
        GraphJS.clamp ⟨⟨0, 10, 2, some 4⟩, ⟨0, 10, 2, some 4⟩⟩ ⟨10, 0⟩ ∧
       GraphJS.snap ⟨⟨0, 10, 2, some 4⟩, ⟨0, 10, 2, some 4⟩⟩
          (GraphJS.clamp ⟨⟨0, 10, 2, some 4⟩, ⟨0, 10, 2, some 4⟩⟩ ⟨10, 0⟩) =
        GraphJS.clamp ⟨⟨0, 10, 2, some 4⟩, ⟨0, 10, 2, some 4⟩⟩
          (GraphJS.snap ⟨⟨0, 10, 2, some 4⟩, ⟨0, 10, 2, some 4⟩⟩ ⟨10, 0⟩)) := by
  rintro ⟨-, h⟩
  have hL : GraphJS.snap ⟨⟨0, 10, 2, some 4⟩, ⟨0, 10, 2, some 4⟩⟩
      (GraphJS.clamp ⟨⟨0, 10, 2, some 4⟩, ⟨0, 10, 2, some 4⟩⟩ ⟨10, 0⟩) = ⟨12, 0⟩ := by
    simp only [GraphJS.snap, GraphJS.clamp, GraphJS.snap1, GraphJS.clamp1, GraphJS.jround,
      GraphJS.AxisSpec.snapOf]
    norm_num
  have hR : GraphJS.clamp ⟨⟨0, 10, 2, some 4⟩, ⟨0, 10, 2, some 4⟩⟩
      (GraphJS.snap ⟨⟨0, 10, 2, some 4⟩, ⟨0, 10, 2, some 4⟩⟩ ⟨10, 0⟩) = ⟨10, 0⟩ := by
    simp only [GraphJS.snap, GraphJS.clamp, GraphJS.snap1, GraphJS.clamp1, GraphJS.jround,
      GraphJS.AxisSpec.snapOf]
    norm_num
  rw [hL, hR] at h
  have hx : (12 : ℚ) = 10 := congrArg GraphJS.Pt.x h
  norm_num at hx

namespace GraphJS

/-- The crossing test as a proposition. -/
lemma crossesZero_iff (prev curr : Pt) :
    crossesZero prev curr = true ↔
      ((0 ≤ prev.y ∧ curr.y < 0) ∨ (prev.y < 0 ∧ 0 ≤ curr.y)) := by
  simp [crossesZero]

/-- Every inserted crossing point lies on the zero baseline. -/
lemma crossingPoint_y (prev curr : Pt) : (crossingPoint prev curr).y = 0 := rfl

/-- Invariant of the `_splitByZero` loop: if every closed segment is
sign-homogeneous and the open segment agrees in sign with `prev`, then
every produced segment is sign-homogeneous. -/
lemma splitLoop_sign (rest : List Pt) : ∀ (prev : Pt) (current : List Pt)
    (segs : List (List Pt)),
    (∀ s ∈ segs, (∀ q ∈ s, 0 ≤ q.y) ∨ (∀ q ∈ s, q.y ≤ 0)) →
    ((0 ≤ prev.y → ∀ q ∈ current, 0 ≤ q.y) ∧
     (prev.y < 0 → ∀ q ∈ current, q.y ≤ 0)) →
    ∀ s ∈ splitLoop prev rest current segs,
      (∀ q ∈ s, 0 ≤ q.y) ∨ (∀ q ∈ s, q.y ≤ 0) := by
  induction rest with
  | nil =>
    intro prev current segs hsegs hcur s hs
    simp only [splitLoop] at hs
    by_cases hemp : current.isEmpty
    · rw [if_pos hemp] at hs
      exact hsegs s hs
    · rw [if_neg hemp] at hs
      rcases List.mem_append.mp hs with h | h
      · exact hsegs s h
      · have hse : s = current := by simpa using h
        subst hse
        rcases le_or_lt 0 prev.y with hp | hp
        · exact Or.inl (hcur.1 hp)
        · exact Or.inr (hcur.2 hp)
  | cons curr rest ih =>
    intro prev current segs hsegs hcur s hs
    simp only [splitLoop] at hs
    by_cases hc : crossesZero prev curr
    · rw [if_pos hc] at hs
      refine ih curr _ _ ?_ ?_ s hs
      · intro s' hs'
        rcases List.mem_append.mp hs' with h | h
        · exact hsegs s' h
        · have hse : s' = current ++ [crossingPoint prev curr] := by simpa using h
          subst hse
          rcases (crossesZero_iff prev curr).mp hc with ⟨hp, _⟩ | ⟨hp, _⟩
          · refine Or.inl ?_
            intro q hq
            rcases List.mem_append.mp hq with h' | h'
            · exact hcur.1 hp q h'
            · have : q = crossingPoint prev curr := by simpa using h'
              rw [this, crossingPoint_y]
          · refine Or.inr ?_
            intro q hq
            rcases List.mem_append.mp hq with h' | h'
            · exact hcur.2 hp q h'
            · have : q = crossingPoint prev curr := by simpa using h'
              rw [this, crossingPoint_y]
      · constructor
        · intro hcy q hq
          rcases List.mem_cons.mp hq with h' | h'
          · rw [h', crossingPoint_y]
          · have : q = curr := by simpa using h'
            rw [this]; exact hcy
        · intro hcy q hq
          rcases List.mem_cons.mp hq with h' | h'
          · rw [h', crossingPoint_y]
          · have : q = curr := by simpa using h'
            rw [this]; exact le_of_lt hcy
    · rw [if_neg hc] at hs
      have hnc : ¬ ((0 ≤ prev.y ∧ curr.y < 0) ∨ (prev.y < 0 ∧ 0 ≤ curr.y)) := by
        intro h
        exact hc ((crossesZero_iff prev curr).mpr h)
      push_neg at hnc
      refine ih curr _ _ hsegs ?_ s hs
      constructor
      · intro hcy q hq
        rcases List.mem_append.mp hq with h' | h'
        · have hp : 0 ≤ prev.y := by
            by_contra hneg
            exact absurd hcy (not_le.mpr (hnc.2 (lt_of_not_le hneg)))
          exact hcur.1 hp q h'
        · have : q = curr := by simpa using h'
          rw [this]; exact hcy
      · intro hcy q hq
        rcases List.mem_append.mp hq with h' | h'
        · have hp : prev.y < 0 := by
            by_contra hneg
            exact absurd (hnc.1 (le_of_not_lt hneg)) (not_le.mpr hcy)
          exact hcur.2 hp q h'
        · have : q = curr := by simpa using h'
          rw [this]; exact le_of_lt hcy

end GraphJS

/-- C2: the zero-crossing split closes a segment at each adjacent pair of
opposite sign (exactly-zero counted as non-negative) at the interpolated
crossing point with `y = 0`; every returned segment is entirely
non-negative or entirely non-positive in `y`, and on `(0,10), (10,-10)`
it returns exactly the 2 segments sharing the crossing point `(5, 0)`. -/
theorem GraphJS.splitByZero_segments (points : List GraphJS.Pt) :
    (∀ s ∈ GraphJS.splitByZero points,
      (∀ q ∈ s, 0 ≤ q.y) ∨ (∀ q ∈ s, q.y ≤ 0)) ∧
    (∀ prev curr : GraphJS.Pt, (GraphJS.crossingPoint prev curr).y = 0) ∧
    GraphJS.splitByZero [⟨0, 10⟩, ⟨10, -10⟩] =
      [[⟨0, 10⟩, ⟨5, 0⟩], [⟨5, 0⟩, ⟨10, -10⟩]] := by
  refine ⟨?_, fun prev curr => rfl, ?_⟩
  · match points with
    | [] =>
      intro s hs
      have : s = [] := by simpa [GraphJS.splitByZero] using hs
      subst this
      exact Or.inl (by intro q hq; cases hq)
    | [p] =>
      intro s hs
      have : s = [p] := by simpa [GraphJS.splitByZero] using hs
      subst this
      rcases le_or_lt 0 p.y with hp | hp
      · exact Or.inl (by intro q hq; rw [show q = p by simpa using hq]; exact hp)
      · exact Or.inr (by intro q hq; rw [show q = p by simpa using hq]; exact le_of_lt hp)
    | p :: q :: rest =>
      intro s hs
      refine GraphJS.splitLoop_sign (q :: rest) p [p] [] (by intro s' hs'; cases hs') ?_ s hs
      constructor
      · intro hp r hr
        rw [show r = p by simpa using hr]; exact hp
      · intro hp r hr
        rw [show r = p by simpa using hr]; exact le_of_lt hp
  · have hcross : GraphJS.crossesZero ⟨0, 10⟩ ⟨10, -10⟩ = true := by
      rw [GraphJS.crossesZero_iff]
      left
      norm_num
    have hcp : GraphJS.crossingPoint ⟨0, 10⟩ ⟨10, -10⟩ = ⟨5, 0⟩ := by
      simp only [GraphJS.crossingPoint, GraphJS.Pt.mk.injEq]
      norm_num
    simp [GraphJS.splitByZero, GraphJS.splitLoop, hcross, hcp]

/-- Witness for C2: the sign-homogeneity conclusion instantiated on the
first segment of the concrete split. -/
theorem GraphJS.splitByZero_segments_witness :
    (0 : ℚ) ≤ (GraphJS.Pt.mk 5 0).y ∨ (GraphJS.Pt.mk 5 0).y ≤ (0 : ℚ) := by
  have hmem : [GraphJS.Pt.mk 0 10, GraphJS.Pt.mk 5 0] ∈
      GraphJS.splitByZero [⟨0, 10⟩, ⟨10, -10⟩] := by
    rw [(GraphJS.splitByZero_segments []).2.2]
    simp
  rcases (GraphJS.splitByZero_segments [⟨0, 10⟩, ⟨10, -10⟩]).1 _ hmem with h | h
  · exact Or.inl (h ⟨5, 0⟩ (by simp))
  · exact Or.inr (h ⟨5, 0⟩ (by simp))

/-- C7 (amended): the code contains no epsilon guard, but whenever
`_splitByZero` takes its crossing branch the divisor `prev.y - curr.y` is
strictly nonzero (the opposite-sign test forces it), and whenever
`_getPointsInRange` interpolates at a straddled boundary the divisor
`p.x - prev.x` is strictly nonzero, so no division by exactly zero
occurs. -/
theorem GraphJS.interpolation_divisors_ne_zero :
    (∀ prev curr : GraphJS.Pt, GraphJS.crossesZero prev curr = true →
      prev.y - curr.y ≠ 0) ∧
    (∀ (prev p : GraphJS.Pt) (bx : ℚ), prev.x < bx → bx < p.x →
      p.x - prev.x ≠ 0) := by
  constructor
  · intro prev curr hc
    rcases (GraphJS.crossesZero_iff prev curr).mp hc with ⟨h1, h2⟩ | ⟨h1, h2⟩
    · intro h; linarith
    · intro h; linarith
  · intro prev p bx h1 h2
    intro h; linarith

/-- Witness for C7: the divisor conclusions at the concrete crossing pair
`(0,10), (10,-10)` and the concrete straddling pair `x = 0 < 5 < 20`. -/
theorem GraphJS.interpolation_divisors_ne_zero_witness :
    (GraphJS.Pt.mk 0 10).y - (GraphJS.Pt.mk 10 (-10)).y ≠ 0 ∧
    (GraphJS.Pt.mk 20 20).x - (GraphJS.Pt.mk 0 0).x ≠ 0 := by
  constructor
  · refine GraphJS.interpolation_divisors_ne_zero.1 ⟨0, 10⟩ ⟨10, -10⟩ ?_
    rw [GraphJS.crossesZero_iff]
    left
    norm_num
  · exact GraphJS.interpolation_divisors_ne_zero.2 ⟨0, 0⟩ ⟨20, 20⟩ 5
      (by norm_num) (by norm_num)

/-- Counterexample for C7: for the pair `(0, 1e-10), (1, -1e-10)` the
divisor `prev.y - curr.y = 2e-10` is within `1e-9` of zero, yet the code
still computes and inserts the interpolated crossing point `(1/2, 0)`
(it does not treat the pair as having no crossing). -/
theorem GraphJS.splitByZero_no_epsilon_guard :
    |(GraphJS.Pt.mk 0 (10000000000 : ℚ)⁻¹).y -
        (GraphJS.Pt.mk 1 (-(10000000000 : ℚ)⁻¹)).y| < (1000000000 : ℚ)⁻¹ ∧
    GraphJS.splitByZero
        [⟨0, (10000000000 : ℚ)⁻¹⟩, ⟨1, -(10000000000 : ℚ)⁻¹⟩] =
      [[⟨0, (10000000000 : ℚ)⁻¹⟩, ⟨(2 : ℚ)⁻¹, 0⟩],
       [⟨(2 : ℚ)⁻¹, 0⟩, ⟨1, -(10000000000 : ℚ)⁻¹⟩]] := by
  constructor
  · rw [show (GraphJS.Pt.mk 0 (10000000000 : ℚ)⁻¹).y -
        (GraphJS.Pt.mk 1 (-(10000000000 : ℚ)⁻¹)).y = 5000000000⁻¹ by norm_num]
    rw [abs_of_pos (by norm_num)]
    norm_num
  · have hcross : GraphJS.crossesZero ⟨0, (10000000000 : ℚ)⁻¹⟩
        ⟨1, -(10000000000 : ℚ)⁻¹⟩ = true := by
      rw [GraphJS.crossesZero_iff]
      left
      norm_num
    have hcp : GraphJS.crossingPoint ⟨0, (10000000000 : ℚ)⁻¹⟩
        ⟨1, -(10000000000 : ℚ)⁻¹⟩ = ⟨(2 : ℚ)⁻¹, 0⟩ := by
      simp only [GraphJS.crossingPoint, GraphJS.Pt.mk.injEq]
      norm_num
    simp [GraphJS.splitByZero, GraphJS.splitLoop, hcross, hcp]

namespace GraphJS

/-- Multiset content of the `_getPointsInRange` loop: the accumulated
result plus the points generated by the pair walk. -/
lemma rangeLoop_coe (f t : ℚ) : ∀ (rest : List Pt) (prev : Pt) (res : List Pt),
    (↑(rangeLoop f t prev rest res) : Multiset Pt) =
      ↑res + ↑(specRangeGen f t prev rest)
  | [], prev, res => by simp [rangeLoop, specRangeGen]
  | p :: rest, prev, res => by
    simp only [rangeLoop, specRangeGen]
    rw [rangeLoop_coe f t rest p]
    split_ifs <;>
      simp only [← Multiset.coe_add, ← Multiset.cons_coe, List.nil_append,
        List.append_nil, List.singleton_append] <;>
      simp only [← Multiset.singleton_add, ← Multiset.coe_add] <;>
      abel

/-- `_getPointsInRange` is a permutation of the specification-style
extraction. -/
lemma getPointsInRange_perm_spec (points : List Pt) (f t : ℚ) :
    (getPointsInRange points f t).Perm (specRangeExtract points f t) := by
  cases points with
  | nil => simp [getPointsInRange, specRangeExtract]
  | cons p rest =>
    simp only [getPointsInRange, specRangeExtract, sortByX]
    refine (List.perm_insertionSort _ _).trans ?_
    rw [← Multiset.coe_eq_coe, rangeLoop_coe]
    split_ifs <;> simp [← Multiset.coe_add]

end GraphJS

/-- C3 (amended): `_getPointsInRange` returns, up to order, exactly the
authored points with `fromX ≤ x ≤ toX` plus, for each adjacent authored
pair *ascending-straddling* a boundary (`prev.x < boundary < curr.x`),
the linearly interpolated point at that boundary; the result is sorted by
`x` ascending; and for points `(0,0),(20,20)` with range `[5,15]` it
returns exactly the interpolated boundary points `(5,5)` and `(15,15)`.
(For a descending straddling pair no boundary point is inserted: see the
counterexample.) -/
theorem GraphJS.getPointsInRange_spec (points : List GraphJS.Pt) (f t : ℚ) :
    (GraphJS.getPointsInRange points f t).Perm (GraphJS.specRangeExtract points f t) ∧
    List.Sorted (fun a b : GraphJS.Pt => a.x ≤ b.x) (GraphJS.getPointsInRange points f t) ∧
    GraphJS.getPointsInRange [⟨0, 0⟩, ⟨20, 20⟩] 5 15 = [⟨5, 5⟩, ⟨15, 15⟩] := by
  refine ⟨GraphJS.getPointsInRange_perm_spec points f t, ?_, ?_⟩
  · cases points with
    | nil => simp [GraphJS.getPointsInRange]
    | cons p rest =>
      simp only [GraphJS.getPointsInRange, GraphJS.sortByX]
      exact List.sorted_insertionSort _ _
  · have h5 : GraphJS.interpAt 5 ⟨0, 0⟩ ⟨20, 20⟩ = ⟨5, 5⟩ := by
      simp only [GraphJS.interpAt, GraphJS.Pt.mk.injEq]
      norm_num
    have h15 : GraphJS.interpAt 15 ⟨0, 0⟩ ⟨20, 20⟩ = ⟨15, 15⟩ := by
      simp only [GraphJS.interpAt, GraphJS.Pt.mk.injEq]
      norm_num
    norm_num [GraphJS.getPointsInRange, GraphJS.rangeLoop, GraphJS.sortByX,
      List.insertionSort, List.orderedInsert, h5, h15]

/-- Counterexample for C3: the authored pair `(20,20),(0,0)` (descending
in x) straddles both boundaries of the range `[5,15]`, but the code's
straddle tests require `prev.x < boundary < curr.x`, so nothing is
extracted — not the claimed interpolated boundary points `(5,5),(15,15)`. -/
theorem GraphJS.getPointsInRange_descending_counterexample :
    GraphJS.getPointsInRange [⟨20, 20⟩, ⟨0, 0⟩] 5 15 = [] ∧
    GraphJS.getPointsInRange [⟨20, 20⟩, ⟨0, 0⟩] 5 15 ≠ [⟨5, 5⟩, ⟨15, 15⟩] := by
  have h : GraphJS.getPointsInRange [⟨20, 20⟩, ⟨0, 0⟩] 5 15 = [] := by
    norm_num [GraphJS.getPointsInRange, GraphJS.rangeLoop, GraphJS.sortByX,
      List.insertionSort]
  exact ⟨h, by rw [h]; simp⟩

namespace GraphJS

/-- If no stored point is within `0.01` of `c` in both coordinates, then
no stored point is exactly equal to `c`, so the click handler's exact
lookup fails. -/
lemma findExact_eq_none (pts : List Pt) (c : Pt)
    (h : ∀ p ∈ pts, ¬ (|p.x - c.x| < 1 / 100 ∧ |p.y - c.y| < 1 / 100)) :
    findExact pts c = none := by
  simp only [findExact]
  rw [List.find?_eq_none]
  intro p hp hpred
  simp only [Bool.and_eq_true, decide_eq_true_eq] at hpred
  refine h p hp ⟨?_, ?_⟩
  · rw [hpred.1, sub_self, abs_zero]; norm_num
  · rw [hpred.2, sub_self, abs_zero]; norm_num

/-- The exact lookup finds the point appended at the end when nothing
before it matches. -/
lemma findExact_append_self (pts : List Pt) (c : Pt)
    (h : findExact pts c = none) :
    findExact (pts ++ [c]) c = some c := by
  simp only [findExact] at h ⊢
  rw [List.find?_append, h]
  simp

/-- `_removePoint` removes nothing from a list of points all farther than
`0.01` from the target. -/
lemma removePoint_of_far (pts : List Pt) (c : Pt)
    (h : ∀ p ∈ pts, ¬ (|p.x - c.x| < 1 / 100 ∧ |p.y - c.y| < 1 / 100)) :
    removePoint pts c = pts := by
  simp only [removePoint]
  rw [List.filter_eq_self]
  intro p hp
  simp only [Bool.not_eq_true', Bool.and_eq_false_iff, decide_eq_false_iff_not]
  by_contra hcon
  push_neg at hcon
  exact h p hp hcon

end GraphJS

/-- C4 (amended): `_removePoint` removes every stored point within `0.01`
of the target in both coordinates (not just the first exactly equal one);
consequently place-then-reactivate returns the store to its prior
contents provided no prior stored point lies within `0.01` of the
activated snapped point.  (For a prior point within `0.01` but not equal,
the second activation removes it too: see the counterexample.) -/
theorem GraphJS.clickPlot_toggle (pts : List GraphJS.Pt) (c : GraphJS.Pt)
    (h : ∀ p ∈ pts, ¬ (|p.x - c.x| < 1 / 100 ∧ |p.y - c.y| < 1 / 100)) :
    GraphJS.clickPlot (GraphJS.clickPlot pts c) c = pts := by
  have h1 : GraphJS.findExact pts c = none := GraphJS.findExact_eq_none pts c h
  have h2 : GraphJS.clickPlot pts c = pts ++ [c] := by
    simp [GraphJS.clickPlot, h1]
  rw [h2]
  have h3 : GraphJS.findExact (pts ++ [c]) c = some c :=
    GraphJS.findExact_append_self pts c h1
  simp only [GraphJS.clickPlot, h3]
  simp only [GraphJS.removePoint, List.filter_append]
  have h4 : List.filter (fun p =>
      ! (decide (|p.x - c.x| < 1 / 100) && decide (|p.y - c.y| < 1 / 100))) pts = pts := by
    have := GraphJS.removePoint_of_far pts c h
    simpa [GraphJS.removePoint] using this
  rw [h4]
  simp

/-- Witness for C4: prior store `[(3,4)]`, activation at `(0,0)` — far
from every prior point — toggles the store back to `[(3,4)]`. -/
theorem GraphJS.clickPlot_toggle_witness :
    GraphJS.clickPlot (GraphJS.clickPlot [⟨3, 4⟩] ⟨0, 0⟩) ⟨0, 0⟩ =
      [GraphJS.Pt.mk 3 4] := by
  refine GraphJS.clickPlot_toggle [⟨3, 4⟩] ⟨0, 0⟩ ?_
  intro p hp
  rw [show p = GraphJS.Pt.mk 3 4 by simpa using hp]
  norm_num

/-- Counterexample for C4: prior store `[(0, 1/200)]` (a point the bulk
restore API can install), activation at `(0, 0)`: the first activation
appends (no exact match), the second finds the exact match and filters
out *both* points (the prior one is within `0.01`), leaving `[]`, not the
prior store. -/
theorem GraphJS.clickPlot_toggle_counterexample :
    GraphJS.clickPlot (GraphJS.clickPlot [⟨0, (200 : ℚ)⁻¹⟩] ⟨0, 0⟩) ⟨0, 0⟩ = [] ∧
    GraphJS.clickPlot (GraphJS.clickPlot [⟨0, (200 : ℚ)⁻¹⟩] ⟨0, 0⟩) ⟨0, 0⟩ ≠
      [⟨0, (200 : ℚ)⁻¹⟩] := by
  have h1 : GraphJS.findExact [(⟨0, (200 : ℚ)⁻¹⟩ : GraphJS.Pt)] ⟨0, 0⟩ = none := by
    simp only [GraphJS.findExact, List.find?_cons, List.find?_nil]
    norm_num
  have h2 : GraphJS.clickPlot [⟨0, (200 : ℚ)⁻¹⟩] ⟨0, 0⟩ =
      [⟨0, (200 : ℚ)⁻¹⟩, ⟨0, 0⟩] := by
    simp [GraphJS.clickPlot, h1]
  have h3 : GraphJS.findExact [(⟨0, (200 : ℚ)⁻¹⟩ : GraphJS.Pt), ⟨0, 0⟩] ⟨0, 0⟩ =
      some ⟨0, 0⟩ := by
    simp only [GraphJS.findExact, List.find?_cons, List.find?_nil]
    norm_num
  have h4 : GraphJS.clickPlot [(⟨0, (200 : ℚ)⁻¹⟩ : GraphJS.Pt), ⟨0, 0⟩] ⟨0, 0⟩ = [] := by
    simp only [GraphJS.clickPlot, h3, GraphJS.removePoint, List.filter_cons, List.filter_nil]
    norm_num [abs_lt]
  rw [h2, h4]
  exact ⟨rfl, by simp⟩

/-- C5 (amended): every point the interactive overlay can append is the
output of `snap` then `clamp` and lies within the axis bounds (for axes
with `min ≤ max`); but the bulk restore `setPlacedPoints` stores its
argument verbatim, with no snapping, clamping or validation. -/
theorem GraphJS.placedPoint_invariant (s : GraphJS.PlotSpec) (raw : GraphJS.Pt)
    (hx : s.xAxis.min ≤ s.xAxis.max) (hy : s.yAxis.min ≤ s.yAxis.max) :
    (s.xAxis.min ≤ (GraphJS.snapClamp s raw).x ∧
     (GraphJS.snapClamp s raw).x ≤ s.xAxis.max ∧
     s.yAxis.min ≤ (GraphJS.snapClamp s raw).y ∧
     (GraphJS.snapClamp s raw).y ≤ s.yAxis.max ∧
     GraphJS.snapClamp s raw = GraphJS.clamp s (GraphJS.snap s raw)) ∧
    ∀ pts : List GraphJS.Pt, GraphJS.setPlacedPoints pts = pts := by
  refine ⟨⟨?_, ?_, ?_, ?_, rfl⟩, fun pts => rfl⟩
  · exact le_max_left _ _
  · exact max_le hx (min_le_left _ _)
  · exact le_max_left _ _
  · exact max_le hy (min_le_left _ _)

/-- Witness for C5: the invariant at a concrete spec and raw point. -/
theorem GraphJS.placedPoint_invariant_witness :
    ((⟨⟨0, 10, 2, some 1⟩, ⟨0, 20, 5, none⟩⟩ : GraphJS.PlotSpec).xAxis.min ≤
      (GraphJS.snapClamp ⟨⟨0, 10, 2, some 1⟩, ⟨0, 20, 5, none⟩⟩ ⟨100, -50⟩).x ∧
     (GraphJS.snapClamp ⟨⟨0, 10, 2, some 1⟩, ⟨0, 20, 5, none⟩⟩ ⟨100, -50⟩).x ≤
      (⟨⟨0, 10, 2, some 1⟩, ⟨0, 20, 5, none⟩⟩ : GraphJS.PlotSpec).xAxis.max ∧
     (⟨⟨0, 10, 2, some 1⟩, ⟨0, 20, 5, none⟩⟩ : GraphJS.PlotSpec).yAxis.min ≤
      (GraphJS.snapClamp ⟨⟨0, 10, 2, some 1⟩, ⟨0, 20, 5, none⟩⟩ ⟨100, -50⟩).y ∧
     (GraphJS.snapClamp ⟨⟨0, 10, 2, some 1⟩, ⟨0, 20, 5, none⟩⟩ ⟨100, -50⟩).y ≤
      (⟨⟨0, 10, 2, some 1⟩, ⟨0, 20, 5, none⟩⟩ : GraphJS.PlotSpec).yAxis.max ∧
     GraphJS.snapClamp ⟨⟨0, 10, 2, some 1⟩, ⟨0, 20, 5, none⟩⟩ ⟨100, -50⟩ =
      GraphJS.clamp ⟨⟨0, 10, 2, some 1⟩, ⟨0, 20, 5, none⟩⟩
        (GraphJS.snap ⟨⟨0, 10, 2, some 1⟩, ⟨0, 20, 5, none⟩⟩ ⟨100, -50⟩)) ∧
    GraphJS.setPlacedPoints [⟨7, 8⟩] = [GraphJS.Pt.mk 7 8] :=
  ⟨(GraphJS.placedPoint_invariant ⟨⟨0, 10, 2, some 1⟩, ⟨0, 20, 5, none⟩⟩ ⟨100, -50⟩
      (by norm_num) (by norm_num)).1,
   (GraphJS.placedPoint_invariant ⟨⟨0, 10, 2, some 1⟩, ⟨0, 20, 5, none⟩⟩ ⟨100, -50⟩
      (by norm_num) (by norm_num)).2 [⟨7, 8⟩]⟩

/-- Counterexample for C5: `setPlacedPoints` installs `(1000, 1000)`
verbatim, although `x = 1000` exceeds the concrete axis maximum `10`, so
the store invariant is not preserved by the bulk restore. -/
theorem GraphJS.setPlacedPoints_counterexample :
    GraphJS.setPlacedPoints [⟨1000, 1000⟩] = [GraphJS.Pt.mk 1000 1000] ∧
    ¬ ((GraphJS.Pt.mk 1000 1000).x ≤
        (⟨⟨0, 10, 2, some 1⟩, ⟨0, 20, 5, none⟩⟩ : GraphJS.PlotSpec).xAxis.max) :=
  ⟨rfl, by norm_num⟩

/-- C6 (amended): a touch-release commit is identical to a pointer click
commit — same store effect, same `onPointsChange` and `onValueRead`
emissions — in view mode, in read mode, with no crosshair, and in plot
mode whenever the store holds no point exactly equal to the activated
point; it differs exactly in the plot-mode toggle-off case, where the
click removes and notifies while the touch release leaves the store
untouched (see the counterexample). -/
theorem GraphJS.touch_click_equiv (mode : GraphJS.Mode) (pts : List GraphJS.Pt)
    (cross : Option GraphJS.Pt)
    (h : ∀ c, cross = some c → mode = GraphJS.Mode.plotPoints →
      GraphJS.findExact pts c = none) :
    GraphJS.touchCommit mode pts cross = GraphJS.clickCommit mode pts cross := by
  cases cross with
  | none => rfl
  | some c =>
    cases mode with
    | view => rfl
    | read => rfl
    | plotPoints =>
      have hn : GraphJS.findExact pts c = none := h c rfl rfl
      simp [GraphJS.touchCommit, GraphJS.clickCommit, hn]

/-- Witness for C6: plot mode, store `[(1,1)]`, activation at `(0,0)` (no
exact match): touch and click commits coincide. -/
theorem GraphJS.touch_click_equiv_witness :
    GraphJS.touchCommit GraphJS.Mode.plotPoints [⟨1, 1⟩] (some ⟨0, 0⟩) =
      GraphJS.clickCommit GraphJS.Mode.plotPoints [⟨1, 1⟩] (some ⟨0, 0⟩) := by
  refine GraphJS.touch_click_equiv GraphJS.Mode.plotPoints [⟨1, 1⟩] (some ⟨0, 0⟩) ?_
  intro c hc _
  rw [show c = GraphJS.Pt.mk 0 0 by injection hc with h; exact h.symm]
  simp only [GraphJS.findExact, List.find?_cons, List.find?_nil]
  norm_num

/-- Counterexample for C6: in plot mode with the activated point already
stored, the click commit removes it and notifies, while the touch-release
commit leaves the store unchanged and notifies nobody. -/
theorem GraphJS.touch_click_diverge :
    GraphJS.clickCommit GraphJS.Mode.plotPoints [⟨0, 0⟩] (some ⟨0, 0⟩) =
      ⟨[], some [], none⟩ ∧
    GraphJS.touchCommit GraphJS.Mode.plotPoints [⟨0, 0⟩] (some ⟨0, 0⟩) =
      ⟨[⟨0, 0⟩], none, none⟩ ∧
    GraphJS.clickCommit GraphJS.Mode.plotPoints [⟨0, 0⟩] (some ⟨0, 0⟩) ≠
      GraphJS.touchCommit GraphJS.Mode.plotPoints [⟨0, 0⟩] (some ⟨0, 0⟩) := by
  have hfind : GraphJS.findExact [(⟨0, 0⟩ : GraphJS.Pt)] ⟨0, 0⟩ = some ⟨0, 0⟩ := by
    simp [GraphJS.findExact]
  have h1 : GraphJS.clickCommit GraphJS.Mode.plotPoints [⟨0, 0⟩] (some ⟨0, 0⟩) =
      ⟨[], some [], none⟩ := by
    simp only [GraphJS.clickCommit, hfind, GraphJS.removePoint, List.filter_cons,
      List.filter_nil]
    norm_num
  have h2 : GraphJS.touchCommit GraphJS.Mode.plotPoints [⟨0, 0⟩] (some ⟨0, 0⟩) =
      ⟨[⟨0, 0⟩], none, none⟩ := by
    simp [GraphJS.touchCommit, hfind]
  refine ⟨h1, h2, ?_⟩
  rw [h1, h2]
  simp

namespace GraphJS

/-- JavaScript truncation is the identity on integers. -/
lemma jsTrunc_intCast (k : ℤ) : jsTrunc (k : ℚ) = k := by
  unfold jsTrunc
  split_ifs <;> simp

/-- The exact-arithmetic remainder `a % b` vanishes exactly on the
integer multiples of `b`. -/
lemma jsMod_eq_zero_iff (a b : ℚ) (hb : b ≠ 0) :
    jsMod a b = 0 ↔ ∃ k : ℤ, a = (k : ℚ) * b := by
  constructor
  · intro h
    refine ⟨jsTrunc (a / b), ?_⟩
    have h' : a - b * (jsTrunc (a / b) : ℚ) = 0 := h
    linarith [h']
  · rintro ⟨k, rfl⟩
    have hd : ((k : ℚ) * b) / b = (k : ℚ) := by
      field_simp
    simp only [jsMod, hd, jsTrunc_intCast]
    ring

end GraphJS

/-- C9: in the exact-arithmetic embedding, every tick generated by
iterating from `min` to `max` in increments of the snap interval is
classified major by `_renderGridlines` if and only if `tick - min` is an
integer multiple of `step`.  (The comparison the code performs is exact
equality of the remainder, `(tick - min) % step === 0`; the claim's
"floating-point-safe comparison" clause is what fails in the actual
binary64 runtime.) -/
theorem GraphJS.isMainTick_iff (axis : GraphJS.AxisSpec) (hstep : 0 < axis.step)
    (v : ℚ) (hv : v ∈ GraphJS.ticks axis) :
    GraphJS.isMainTick axis v = true ↔
      ∃ k : ℤ, v - axis.min = (k : ℚ) * axis.step := by
  simp only [GraphJS.isMainTick, decide_eq_true_eq]
  exact GraphJS.jsMod_eq_zero_iff _ _ (ne_of_gt hstep)

/-- Witness for C9: on the axis `{min 0, max 10, step 2, snapStep 1}`,
the generated tick `0` is classified major. -/
theorem GraphJS.isMainTick_iff_witness :
    GraphJS.isMainTick ⟨0, 10, 2, some 1⟩ 0 = true := by
  have hv : (0 : ℚ) ∈ GraphJS.ticks ⟨0, 10, 2, some 1⟩ := by
    rw [GraphJS.ticks, if_neg (by norm_num)]
    simp only [List.mem_map, List.mem_range]
    exact ⟨0, Nat.succ_pos _, by norm_num⟩
  exact (GraphJS.isMainTick_iff ⟨0, 10, 2, some 1⟩ (by norm_num) 0 hv).mpr
    ⟨0, by norm_num⟩

/-- C10 (amended): the constructor performs no validation of the spec
and has no rejection path.  When the four `min`-to-`max` loops of its
synchronous `render()` terminate (each axis traversal has `max < min` or
a positive increment), it returns an instance with the spec stored
verbatim — malformed or not — an empty placed-point store, the given
mode and working store operations; the only way it fails to return an
instance is the non-terminating gridline/tick loop (`min ≤ max` with a
non-positive effective snap interval or step), which is divergence, not
rejection. -/
theorem GraphJS.construct_no_validation (spec : GraphJS.PlotSpec) (m : GraphJS.Mode) :
    (GraphJS.renderTerminates spec →
      GraphJS.construct spec m = some ⟨spec, [], m⟩) ∧
    (GraphJS.construct spec m = none ↔ ¬ GraphJS.renderTerminates spec) ∧
    (∀ g : GraphJS.GraphState, GraphJS.construct spec m = some g →
      g.spec = spec ∧ g.placedPoints = [] ∧ g.mode = m ∧
      ∀ c : GraphJS.Pt, GraphJS.clickPlot g.placedPoints c = [c]) := by
  refine ⟨?_, ⟨?_, ?_⟩, ?_⟩
  · intro h
    simp [GraphJS.construct, h]
  · intro h hterm
    simp [GraphJS.construct, hterm] at h
  · intro h
    simp [GraphJS.construct, h]
  · intro g hg
    simp only [GraphJS.construct] at hg
    by_cases h : GraphJS.renderTerminates spec
    · rw [if_pos h] at hg
      obtain rfl : GraphJS.GraphState.mk spec [] m = g := Option.some.inj hg
      exact ⟨rfl, rfl, rfl, fun _ => rfl⟩
    · rw [if_neg h] at hg
      exact Option.noConfusion hg

/-- Witness for C10: a well-formed spec, whose four render loops all have
positive increments, is constructed into the expected instance. -/
theorem GraphJS.construct_no_validation_witness :
    GraphJS.construct ⟨⟨0, 10, 2, some 1⟩, ⟨0, 20, 5, none⟩⟩ GraphJS.Mode.view =
      some ⟨⟨⟨0, 10, 2, some 1⟩, ⟨0, 20, 5, none⟩⟩, [], GraphJS.Mode.view⟩ :=
  (GraphJS.construct_no_validation ⟨⟨0, 10, 2, some 1⟩, ⟨0, 20, 5, none⟩⟩
      GraphJS.Mode.view).1
    ⟨Or.inr (by norm_num [GraphJS.AxisSpec.snapOf]),
     Or.inr (by norm_num [GraphJS.AxisSpec.snapOf]),
     Or.inr (by norm_num), Or.inr (by norm_num)⟩

/-- Counterexample for C10: the malformed `PlotSpec` with `xAxis`
`{min: 10, max: 0}` (`max ≤ min`) is not rejected: all four render loops
run zero x-iterations (`max < min`) and finitely many y-iterations, so
the constructor returns a working instance.  By contrast, a malformed
spec with an empty y-range and zero effective snap (`min = max = 5`,
`snapStep` falsy, `step = 0`) makes the constructor hang forever in the
gridline loop (`none`) — divergence, again not a rejection. -/
theorem GraphJS.construct_accepts_malformed :
    ((⟨⟨10, 0, 2, some 1⟩, ⟨0, 20, 5, none⟩⟩ : GraphJS.PlotSpec).xAxis.max ≤
      (⟨⟨10, 0, 2, some 1⟩, ⟨0, 20, 5, none⟩⟩ : GraphJS.PlotSpec).xAxis.min) ∧
    GraphJS.construct ⟨⟨10, 0, 2, some 1⟩, ⟨0, 20, 5, none⟩⟩ GraphJS.Mode.view =
      some ⟨⟨⟨10, 0, 2, some 1⟩, ⟨0, 20, 5, none⟩⟩, [], GraphJS.Mode.view⟩ ∧
    GraphJS.construct ⟨⟨10, 0, -2, some 0⟩, ⟨5, 5, 0, none⟩⟩ GraphJS.Mode.view =
      none := by
  refine ⟨by norm_num, ?_, ?_⟩
  · have ht : GraphJS.renderTerminates ⟨⟨10, 0, 2, some 1⟩, ⟨0, 20, 5, none⟩⟩ :=
      ⟨Or.inl (by norm_num), Or.inr (by norm_num [GraphJS.AxisSpec.snapOf]),
       Or.inl (by norm_num), Or.inr (by norm_num)⟩
    simp [GraphJS.construct, ht]
  · have hnt : ¬ GraphJS.renderTerminates ⟨⟨10, 0, -2, some 0⟩, ⟨5, 5, 0, none⟩⟩ := by
      intro h
      rcases h with ⟨-, h2, -, -⟩
      rcases h2 with h2 | h2
      · exact absurd h2 (by norm_num)
      · rw [show GraphJS.AxisSpec.snapOf ⟨5, 5, 0, none⟩ = 0 from rfl] at h2
        exact absurd h2 (by norm_num)
    simp [GraphJS.construct, hnt]
